import Mathlib

/-!
Verification development for the chunked voxel world core of `src/main.js`
(openworld).  The definitions below are a shallow embedding of the
JavaScript source: chunk storage, block get/set, terrain generation, the
face-culling mesher, the physics step and the save/load system.  JavaScript
numbers are modelled as `ℚ` (continuous quantities) and `ℤ`/`ℕ` (indices);
a `Uint8Array` is a `List ℕ` of byte values, and an out-of-bounds array
read (JavaScript `undefined`) is modelled by `Option` (`none`).
-/

namespace OpenWorld

/-- Block identifiers, from the `BLOCK` table in main.js. -/
def AIR : ℕ := 0

/-- Block identifier `BLOCK.GRASS`. -/
def GRASS : ℕ := 1

/-- Block identifier `BLOCK.DIRT`. -/
def DIRT : ℕ := 2

/-- Block identifier `BLOCK.STONE`. -/
def STONE : ℕ := 3

/-- Block identifier `BLOCK.SAND`. -/
def SAND : ℕ := 4

/-- Block identifier `BLOCK.WOOD`. -/
def WOOD : ℕ := 5

/-- Block identifier `BLOCK.BRICK`. -/
def BRICK : ℕ := 6

/-- `CHUNK_SIZE` from main.js. -/
def CHUNK_SIZE : ℕ := 16

/-- `CHUNK_HEIGHT` from main.js. -/
def CHUNK_HEIGHT : ℕ := 24

/-- `GRAVITY` from main.js. -/
def GRAVITY : ℚ := 25

/-- `SPEED` from main.js. -/
def SPEED : ℚ := 6

/-- The logical role of a face, used to pick the atlas tile
(`'top' | 'bottom' | 'side'` strings in main.js). -/
inductive FaceName where
  | top
  | bottom
  | side
deriving DecidableEq

/-- One quad emitted by `addFace` in `buildChunkMesh`: the cell's world
position (`worldPos`), the outward offset `(ox, oy, oz)`, the cell's block
type (`none` models a JavaScript `undefined` read past the array end) and
the face's logical role.  The rotation angles and UV rectangle of the
source are functions of these fields and are not re-modelled. -/
structure Face where
  pos : ℤ × ℤ × ℤ
  dir : ℤ × ℤ × ℤ
  ty : Option ℕ
  faceName : FaceName
deriving DecidableEq

/-- A chunk's dense block array (`chunks[key].data`, a `Uint8Array` of
length `CHUNK_SIZE * CHUNK_HEIGHT * CHUNK_SIZE`). -/
abbrev ChunkData := List ℕ

/-- A chunk's geometry batch: the list of emitted faces. -/
abbrev Mesh := List Face

/-- One entry of the `chunks` map: block data plus the optional mesh. -/
structure Chunk where
  data : ChunkData
  mesh : Option Mesh
deriving DecidableEq

/-- A chunk coordinate `(cx, cz)`; `getChunkKey` renders it as the string
key. -/
abbrev ChunkKey := ℤ × ℤ

/-- The `chunks` object: a finite map from chunk key to chunk, modelled as
an association list (JavaScript object keys are unique; `getChunkKey` is
injective so `(cx, cz)` pairs stand in for the string keys). -/
abbrev World := List (ChunkKey × Chunk)

/-- Lookup `chunks[key]`. -/
def findChunk (w : World) (k : ChunkKey) : Option Chunk :=
  match w with
  | [] => none
  | e :: rest => if e.1 = k then some e.2 else findChunk rest k

/-- The flat index `y*CHUNK_SIZE*CHUNK_SIZE + z*CHUNK_SIZE + x` used for
every chunk-data access in main.js. -/
def cellIndex (x y z : ℕ) : ℕ :=
  y * (CHUNK_SIZE * CHUNK_SIZE) + z * CHUNK_SIZE + x

/-- `getBlock(cx, cz, x, y, z)` from main.js: `BLOCK.AIR` when the chunk is
not loaded or any local coordinate is out of range (the "open edges"
comment in the source), otherwise the raw array read `data[index]`
(`none` = `undefined` is only possible on a short array). -/
def getBlock (w : World) (cx cz x y z : ℤ) : Option ℕ :=
  match findChunk w (cx, cz) with
  | none => some AIR
  | some ch =>
    if x < 0 ∨ (CHUNK_SIZE : ℤ) ≤ x ∨ z < 0 ∨ (CHUNK_SIZE : ℤ) ≤ z ∨
        y < 0 ∨ (CHUNK_HEIGHT : ℤ) ≤ y then
      some AIR
    else
      ch.data[cellIndex x.toNat y.toNat z.toNat]?

/-- The chunk coordinate `Math.floor(w / CHUNK_SIZE)` computed by
`setBlock`. -/
def chunkCoordOf (wq : ℚ) : ℤ := ⌊wq / (CHUNK_SIZE : ℚ)⌋

/-- The local coordinate `Math.floor(w - c*CHUNK_SIZE)` computed by
`setBlock`. -/
def localCoordOf (wq : ℚ) : ℤ := ⌊wq - (chunkCoordOf wq : ℚ) * (CHUNK_SIZE : ℚ)⌋

/-- Replace the stored data of chunk `k` (the in-place array mutation
`chunks[key].data[index] = id` after the array was rebuilt). -/
def setData (w : World) (k : ChunkKey) (d : ChunkData) : World :=
  w.map fun e => if e.1 = k then (e.1, { e.2 with data := d }) else e

/-- Store a freshly built mesh on chunk `k`
(`chunks[getChunkKey(cx, cz)].mesh = mesh`). -/
def setMesh (w : World) (k : ChunkKey) (m : Option Mesh) : World :=
  w.map fun e => if e.1 = k then (e.1, { e.2 with mesh := m }) else e

/-- The six neighbor checks of `buildChunkMesh` for one non-Air cell: a
quad is pushed for each axis neighbor that `getBlock` reports as
`BLOCK.AIR`.  Order follows the source: right (x+1), left (x-1), top
(y+1), bottom (y-1), front (z+1), back (z-1).  `ty = data[index]` is the
cell's block type; the `type === BLOCK.AIR` skip happens in
`cellFaces`. -/
def faceChecks (w : World) (cx cz : ℤ) (x y z : ℕ) (ty : Option ℕ) : List Face :=
  let wp : ℤ × ℤ × ℤ := (cx * (CHUNK_SIZE : ℤ) + x, (y : ℤ), cz * (CHUNK_SIZE : ℤ) + z)
  (if getBlock w cx cz ((x : ℤ) + 1) y z = some AIR then
    [⟨wp, (1, 0, 0), ty, .side⟩] else []) ++
  (if getBlock w cx cz ((x : ℤ) - 1) y z = some AIR then
    [⟨wp, (-1, 0, 0), ty, .side⟩] else []) ++
  (if getBlock w cx cz x ((y : ℤ) + 1) z = some AIR then
    [⟨wp, (0, 1, 0), ty, .top⟩] else []) ++
  (if getBlock w cx cz x ((y : ℤ) - 1) z = some AIR then
    [⟨wp, (0, -1, 0), ty, .bottom⟩] else []) ++
  (if getBlock w cx cz x y ((z : ℤ) + 1) = some AIR then
    [⟨wp, (0, 0, 1), ty, .side⟩] else []) ++
  (if getBlock w cx cz x y ((z : ℤ) - 1) = some AIR then
    [⟨wp, (0, 0, -1), ty, .side⟩] else [])

/-- The faces one cell of `buildChunkMesh` contributes: none when
`data[index] === BLOCK.AIR` (the `continue`), otherwise the six neighbor
checks.  A `none` read (`undefined`, short array) is not `=== BLOCK.AIR`
and therefore falls through to the checks, as in the source. -/
def cellFaces (w : World) (cx cz : ℤ) (d : ChunkData) (x y z : ℕ) : List Face :=
  match d[cellIndex x y z]? with
  | some 0 => []
  | ty => faceChecks w cx cz x y z ty

/-- The geometry list of `buildChunkMesh(cx, cz, data)`: all faces of all
cells, iterating y, then z, then x as in the source. -/
def chunkFaces (w : World) (cx cz : ℤ) (d : ChunkData) : List Face :=
  (List.range CHUNK_HEIGHT).flatMap fun y =>
    (List.range CHUNK_SIZE).flatMap fun z =>
      (List.range CHUNK_SIZE).flatMap fun x =>
        cellFaces w cx cz d x y z

/-- The merged geometry batch of `buildChunkMesh`: `none` when the
geometry list is empty (the early `return`), otherwise the merged list. -/
def buildChunkMesh (w : World) (cx cz : ℤ) (d : ChunkData) : Option Mesh :=
  let g := chunkFaces w cx cz d
  if g = [] then none else some g

/-- Run `buildChunkMesh` against the world and store the result on the
chunk; when the geometry is empty the source returns before touching
`chunks[key].mesh`, so the world is unchanged. -/
def buildAndStore (w : World) (cx cz : ℤ) (d : ChunkData) : World :=
  match buildChunkMesh w cx cz d with
  | none => w
  | some m => setMesh w (cx, cz) (some m)

/-- `setBlock(wx, wy, wz, id)` from main.js: floor-based resolution of the
owning chunk and local coordinates, then — only when that chunk is loaded
and the vertical coordinate is in range — an in-place write of the array
cell followed by a synchronous mesh rebuild.  `Uint8Array` assignment
truncates the stored value to a byte (`id % 256`); `List.set` past the end
is a no-op exactly like an out-of-range typed-array write. -/
def setBlock (w : World) (wx wy wz : ℚ) (id : ℕ) : World :=
  let cx := chunkCoordOf wx
  let cz := chunkCoordOf wz
  let lx := localCoordOf wx
  let lz := localCoordOf wz
  let ly : ℤ := ⌊wy⌋
  match findChunk w (cx, cz) with
  | none => w
  | some ch =>
    if 0 ≤ ly ∧ ly < (CHUNK_HEIGHT : ℤ) then
      let d := ch.data.set (cellIndex lx.toNat ly.toNat lz.toNat) (id % 256)
      buildAndStore (setData w (cx, cz) d) cx cz d
    else w

/-- The persisted payload of `saveWorld`: each loaded chunk's key mapped to
its flattened block array (`Array.from(chunks[key].data)`). -/
abbrev SaveData := List (ChunkKey × List ℕ)

/-- `saveWorld` from main.js (minus the external `localStorage`/JSON
encoding, which is a byte-faithful transport of this mapping). -/
def saveWorld (w : World) : SaveData :=
  w.map fun e => (e.1, e.2.data)

/-- One iteration of the rebuild loop in `loadWorld`: construct the typed
array (`new Uint8Array(saveData[key])` takes each value mod 256), install
the chunk with a null mesh, then build its mesh against the accumulated
world. -/
def loadStep (acc : World) (e : ChunkKey × List ℕ) : World :=
  let d : ChunkData := e.2.map fun v => v % 256
  let acc1 := acc ++ [(e.1, ⟨d, none⟩)]
  buildAndStore acc1 e.1.1 e.1.2 d

/-- `loadWorld` from main.js (minus the external `localStorage` fetch and
JSON decoding): the current chunk map is discarded and every entry of the
persisted mapping is rebuilt in order.  There is no validation of the
stored arrays. -/
def loadWorld (sd : SaveData) : World :=
  sd.foldl loadStep []

/-- The column height of `generateChunkData`:
`Math.floor(5 + Math.sin(worldX * 0.1) * 2 + Math.cos(worldZ * 0.1) * 2)`,
with the transcendental library functions read as their exact real
counterparts. -/
noncomputable def terrainHeight (wx wz : ℤ) : ℤ :=
  ⌊(5 : ℝ) + Real.sin ((wx : ℝ) * 0.1) * 2 + Real.cos ((wz : ℝ) * 0.1) * 2⌋

/-- The block stored for one cell of a column with height `h`: the inner
`y` loop body of `generateChunkData`. -/
def genCellWith (h : ℤ) (y : ℕ) : ℕ :=
  if (y : ℤ) < h then
    (if (y : ℤ) < h - 3 then STONE else DIRT)
  else if (y : ℤ) = h then GRASS
  else AIR

/-- `generateChunkData(cx, cz)` from main.js.  The source loops x, z, y and
writes each flat index `cellIndex x y z` exactly once; the array is
therefore the map over all indices of the cell at the decoded coordinates
(`y = i / 256`, `z = i % 256 / 16`, `x = i % 16`, the inverse of
`cellIndex`). -/
noncomputable def generateChunkData (cx cz : ℤ) : ChunkData :=
  (List.range (CHUNK_SIZE * CHUNK_SIZE * CHUNK_HEIGHT)).map fun i =>
    genCellWith
      (terrainHeight (cx * (CHUNK_SIZE : ℤ) + (i % CHUNK_SIZE : ℕ))
        (cz * (CHUNK_SIZE : ℤ) + (i % (CHUNK_SIZE * CHUNK_SIZE) / CHUNK_SIZE : ℕ)))
      (i / (CHUNK_SIZE * CHUNK_SIZE))

/-- Rotation about the y axis by angle `a` (column action of the three.js
`RY` factor). -/
noncomputable def rotY (a : ℝ) (v : ℝ × ℝ × ℝ) : ℝ × ℝ × ℝ :=
  (Real.cos a * v.1 + Real.sin a * v.2.2, v.2.1,
    -Real.sin a * v.1 + Real.cos a * v.2.2)

/-- Rotation about the x axis by angle `a`. -/
noncomputable def rotX (a : ℝ) (v : ℝ × ℝ × ℝ) : ℝ × ℝ × ℝ :=
  (v.1, Real.cos a * v.2.1 - Real.sin a * v.2.2,
    Real.sin a * v.2.1 + Real.cos a * v.2.2)

/-- Modelled from the three.js dependency (vendored under `libs/`, outside
`src/`): `v.applyQuaternion(camera.quaternion)` where the camera's
quaternion comes from its Euler angles.  main.js writes only
`camera.rotation.x` (pitch) and `camera.rotation.y` (yaw), and three.js's
default Euler order is `XYZ`, whose rotation matrix is
`RX(x) * RY(y) * RZ(z)`; with roll `z = 0` the action on a vector is
`rotX pitch (rotY yaw v)`. -/
noncomputable def applyCameraRot (pitch yaw : ℝ) (v : ℝ × ℝ × ℝ) : ℝ × ℝ × ℝ :=
  rotX pitch (rotY yaw v)

/-- The `forward.y = 0; forward.normalize()` idiom of `updatePhysics`:
zero the vertical component, then divide by the Euclidean length (three.js
`normalize` guards the zero vector, which stays zero — the same result as
the `x / 0 = 0` convention used here). -/
noncomputable def horizNormalize (v : ℝ × ℝ × ℝ) : ℝ × ℝ × ℝ :=
  let l := Real.sqrt (v.1 * v.1 + 0 * 0 + v.2.2 * v.2.2)
  (v.1 / l, 0 / l, v.2.2 / l)

/-- The mutable state read and written by `updatePhysics`:
`camera.position` and `player.velocity` plus the grounded flag. -/
structure PhysState where
  px : ℝ
  py : ℝ
  pz : ℝ
  vx : ℝ
  vy : ℝ
  vz : ℝ
  onGround : Bool

/-- `updatePhysics(dt)` from main.js, with the camera angles and the two
touch-stick inputs (`moveInput.x`, `moveInput.y`) passed explicitly:
gravity, camera-relative horizontal movement, vertical integration, the
single-sample ground test (`Math.floor(py - 1.6)` under the new horizontal
position; on a non-Air hit snap to `ly + 1 + 1.6`, zero vertical velocity
and set grounded), and the kill plane below y = −10. -/
noncomputable def updatePhysics (w : World) (pitch yaw miX miY : ℝ) (dt : ℝ)
    (s : PhysState) : PhysState :=
  let vy1 := s.vy - (GRAVITY : ℝ) * dt
  let forward := horizNormalize (applyCameraRot pitch yaw (0, 0, -1))
  let rightv := horizNormalize (applyCameraRot pitch yaw (1, 0, 0))
  let sF := -miY * (SPEED : ℝ) * dt
  let sR := miX * (SPEED : ℝ) * dt
  let mvx := forward.1 * sF + rightv.1 * sR
  let mvy := forward.2.1 * sF + rightv.2.1 * sR
  let mvz := forward.2.2 * sF + rightv.2.2 * sR
  let px1 := s.px + mvx
  let py1 := s.py + mvy + vy1 * dt
  let pz1 := s.pz + mvz
  let chX : ℤ := ⌊px1 / (CHUNK_SIZE : ℝ)⌋
  let chZ : ℤ := ⌊pz1 / (CHUNK_SIZE : ℝ)⌋
  let lx : ℤ := ⌊px1 - (chX : ℝ) * (CHUNK_SIZE : ℝ)⌋
  let lz : ℤ := ⌊pz1 - (chZ : ℝ) * (CHUNK_SIZE : ℝ)⌋
  let ly : ℤ := ⌊py1 - 1.6⌋
  let blockBelow := getBlock w chX chZ lx ly lz
  let s1 : PhysState :=
    if blockBelow ≠ some AIR then
      { px := px1, py := (ly : ℝ) + 1 + 1.6, pz := pz1,
        vx := s.vx, vy := 0, vz := s.vz, onGround := true }
    else
      { px := px1, py := py1, pz := pz1,
        vx := s.vx, vy := vy1, vz := s.vz, onGround := false }
  if s1.py < -10 then
    { px := 0, py := 30, pz := 0, vx := 0, vy := 0, vz := 0,
      onGround := s1.onGround }
  else s1


/-- Rational-valued physics state, used to compute `updatePhysics`
exactly: with both stick inputs zero the step preserves rationality. -/
structure QState where
  px : ℚ
  py : ℚ
  pz : ℚ
  vx : ℚ
  vy : ℚ
  vz : ℚ
  onGround : Bool
deriving DecidableEq

/-- Embed a rational physics state into the real one. -/
noncomputable def castState (q : QState) : PhysState :=
  ⟨(q.px : ℝ), (q.py : ℝ), (q.pz : ℝ), (q.vx : ℝ), (q.vy : ℝ), (q.vz : ℝ),
    q.onGround⟩

/-- Block data of a flat chunk: Dirt up to y = 4, Grass exactly at y = 5,
Air above — the "flat solid surface whose top block (Grass) is at y = 5"
scenario. -/
def flatData : ChunkData :=
  List.replicate (5 * (CHUNK_SIZE * CHUNK_SIZE)) DIRT ++
  (List.replicate (CHUNK_SIZE * CHUNK_SIZE) GRASS ++
    List.replicate (18 * (CHUNK_SIZE * CHUNK_SIZE)) AIR)

/-- A world holding the single flat chunk at (0, 0); the physics scenario
stays above it. -/
def flatWorld : World := [((0, 0), ⟨flatData, none⟩)]

/-- What `getBlock` answers over `flatWorld` for any in-range horizontal
local coordinate — proved in `getBlock_flatWorld`, and used so that the
exact physics computation involves no list traversal. -/
def flatBlockAt (iy : ℤ) : Option ℕ :=
  if iy < 0 ∨ (CHUNK_HEIGHT : ℤ) ≤ iy then some AIR
  else if iy < 5 then some DIRT
  else if iy = 5 then some GRASS
  else some AIR

/-- The zero-input physics step over `flatWorld`, written over `ℚ`:
`updatePhysics_flat_step` proves it mirrors `updatePhysics` exactly when
both stick inputs are zero and the body stays horizontally inside chunk
(0, 0). -/
def flatStep (dt : ℚ) (s : QState) : QState :=
  let vy1 := s.vy - GRAVITY * dt
  let py1 := s.py + vy1 * dt
  let ly : ℤ := ⌊py1 - 1.6⌋
  let s1 : QState :=
    if flatBlockAt ly ≠ some AIR then
      { px := s.px, py := (ly : ℚ) + 1 + 1.6, pz := s.pz,
        vx := s.vx, vy := 0, vz := s.vz, onGround := true }
    else
      { px := s.px, py := py1, pz := s.pz,
        vx := s.vx, vy := vy1, vz := s.vz, onGround := false }
  if s1.py < -10 then
    { px := 0, py := 30, pz := 0, vx := 0, vy := 0, vz := 0,
      onGround := s1.onGround }
  else s1

/-- The falling start state of the physics scenario: at (8, 30, 8) with
zero velocity. -/
def c2Start : QState := ⟨8, 30, 8, 0, 0, 0, false⟩

/-- The rest state of the physics scenario: eye height 1.6 above the top
of the Grass block at y = 5, so `py = 5 + 1 + 1.6 = 38/5`. -/
def c2Rest : QState := ⟨8, 38 / 5, 8, 0, 0, 0, true⟩

/-- A chunk filled with Stone at every cell. -/
def solidData : ChunkData :=
  List.replicate (CHUNK_SIZE * CHUNK_SIZE * CHUNK_HEIGHT) STONE

/-- A world where chunk (0, 0) and its four loaded horizontal neighbors
are all filled solid with Stone. -/
def solidWorld : World :=
  [((0, 0), ⟨solidData, none⟩), ((1, 0), ⟨solidData, none⟩),
    ((-1, 0), ⟨solidData, none⟩), ((0, 1), ⟨solidData, none⟩),
    ((0, -1), ⟨solidData, none⟩)]

/-- An airborne state over an empty world, used to compare two physics
steps that differ only in pitch. -/
noncomputable def airState : PhysState := ⟨8, 30, 8, 0, 0, 0, false⟩

/-- The quad `buildChunkMesh` pushes for the left (x−1) side of the cell
at local coordinates `(x, y, z)`. -/
def leftFaceAt (cx cz : ℤ) (d : ChunkData) (x y z : ℕ) : Face :=
  ⟨(cx * (CHUNK_SIZE : ℤ) + x, (y : ℤ), cz * (CHUNK_SIZE : ℤ) + z),
    (-1, 0, 0), d[cellIndex x y z]?, .side⟩

/-- The observable chunk contents of a world: every chunk's key paired
with its block array (the geometry batches are derived data). -/
def worldDataProj (w : World) : SaveData :=
  w.map fun e => (e.1, e.2.data)

/-- A one-chunk world with a full-size array, used to instantiate the
save/load round trip. -/
def c7World : World :=
  [((0, 0), ⟨List.replicate (CHUNK_SIZE * CHUNK_SIZE * CHUNK_HEIGHT) DIRT, none⟩)]

theorem localCoordOf_nonneg (wq : ℚ) : 0 ≤ localCoordOf wq := by
  unfold localCoordOf chunkCoordOf
  have hcs : (0 : ℚ) < ((CHUNK_SIZE : ℕ) : ℚ) := by norm_num [CHUNK_SIZE]
  have hle : ((⌊wq / ((CHUNK_SIZE : ℕ) : ℚ)⌋ : ℤ) : ℚ) ≤ wq / ((CHUNK_SIZE : ℕ) : ℚ) :=
    Int.floor_le _
  have hmul : wq / ((CHUNK_SIZE : ℕ) : ℚ) * ((CHUNK_SIZE : ℕ) : ℚ) = wq :=
    div_mul_cancel₀ wq (ne_of_gt hcs)
  refine Int.le_floor.mpr ?_
  push_cast
  nlinarith [mul_le_mul_of_nonneg_right hle (le_of_lt hcs)]

theorem localCoordOf_lt (wq : ℚ) : localCoordOf wq < 16 := by
  unfold localCoordOf chunkCoordOf
  have hcs : (0 : ℚ) < ((CHUNK_SIZE : ℕ) : ℚ) := by norm_num [CHUNK_SIZE]
  have hcs16 : ((CHUNK_SIZE : ℕ) : ℚ) = 16 := by norm_num [CHUNK_SIZE]
  have hlt : wq / ((CHUNK_SIZE : ℕ) : ℚ) < ⌊wq / ((CHUNK_SIZE : ℕ) : ℚ)⌋ + 1 :=
    Int.lt_floor_add_one _
  have hmul : wq / ((CHUNK_SIZE : ℕ) : ℚ) * ((CHUNK_SIZE : ℕ) : ℚ) = wq :=
    div_mul_cancel₀ wq (ne_of_gt hcs)
  refine Int.floor_lt.mpr ?_
  push_cast
  nlinarith [mul_lt_mul_of_pos_right hlt hcs]

unseal Rat.add Rat.sub Rat.mul Rat.inv in
/-- C3: `setBlock` resolves world coordinates by flooring
(`chunkCoordOf`, `localCoordOf`), which keeps every local coordinate in
[0, 16) — for every world coordinate, negative ones included — and sends
worldX = −1 to chunk −1, local 15 (not −1). -/
theorem setBlock_floor_resolution :
    (∀ wq : ℚ, 0 ≤ localCoordOf wq ∧ localCoordOf wq < 16) ∧
    chunkCoordOf (-1) = -1 ∧ localCoordOf (-1) = 15 :=
  ⟨fun wq => ⟨localCoordOf_nonneg wq, localCoordOf_lt wq⟩, by decide, by decide⟩

/-- C8: an edit aimed at an unloaded chunk, or with a vertical coordinate
outside [0, CHUNK_HEIGHT), leaves the world — every block array and every
geometry batch — unchanged; `setBlock` is total, so no error is raised. -/
theorem setBlock_noop_out_of_world (w : World) (wx wy wz : ℚ) (id : ℕ)
    (h : findChunk w (chunkCoordOf wx, chunkCoordOf wz) = none ∨
      ⌊wy⌋ < 0 ∨ ((CHUNK_HEIGHT : ℕ) : ℤ) ≤ ⌊wy⌋) :
    setBlock w wx wy wz id = w := by
  simp only [setBlock]
  cases hf : findChunk w (chunkCoordOf wx, chunkCoordOf wz) with
  | none => simp only [hf]
  | some ch =>
    rcases h with h | h
    · rw [h] at hf; cases hf
    · have hneg : ¬(0 ≤ ⌊wy⌋ ∧ ⌊wy⌋ < ((CHUNK_HEIGHT : ℕ) : ℤ)) := by
        simp only [CHUNK_HEIGHT] at h ⊢
        omega
      simp only [hf, hneg, if_false]

/-- Witness for `setBlock_noop_out_of_world` at the empty world. -/
theorem setBlock_noop_out_of_world_witness :
    (findChunk ([] : World) (chunkCoordOf 0, chunkCoordOf 0) = none ∨
      ⌊(0 : ℚ)⌋ < 0 ∨ ((CHUNK_HEIGHT : ℕ) : ℤ) ≤ ⌊(0 : ℚ)⌋) ∧
    setBlock [] 0 0 0 GRASS = [] :=
  ⟨Or.inl rfl, setBlock_noop_out_of_world [] 0 0 0 GRASS (Or.inl rfl)⟩

theorem worldDataProj_setMesh (w : World) (k : ChunkKey) (m : Option Mesh) :
    worldDataProj (setMesh w k m) = worldDataProj w := by
  unfold worldDataProj setMesh
  rw [List.map_map]
  refine List.map_congr_left fun e _ => ?_
  by_cases h : e.1 = k <;> simp [h, Function.comp]

theorem worldDataProj_buildAndStore (w : World) (cx cz : ℤ) (d : ChunkData) :
    worldDataProj (buildAndStore w cx cz d) = worldDataProj w := by
  unfold buildAndStore
  cases buildChunkMesh w cx cz d with
  | none => rfl
  | some m => exact worldDataProj_setMesh w (cx, cz) (some m)

theorem loadWorld_foldl_proj (sd : SaveData) : ∀ acc : World,
    worldDataProj (sd.foldl loadStep acc) =
      worldDataProj acc ++ sd.map fun e => (e.1, e.2.map fun v => v % 256) := by
  induction sd with
  | nil => intro acc; simp
  | cons e rest ih =>
    intro acc
    rw [List.foldl_cons, ih]
    unfold loadStep
    rw [worldDataProj_buildAndStore]
    simp [worldDataProj]

/-- C5 (amended): the loader performs no validation at all — every entry
of the persisted mapping, well-formed or not, is installed into the
rebuilt world with its array passed through byte conversion; no load
error exists (`loadWorld` is total). -/
theorem loadWorld_installs_all_entries (sd : SaveData) :
    worldDataProj (loadWorld sd) =
      sd.map fun e => (e.1, e.2.map fun v => v % 256) := by
  rw [loadWorld, loadWorld_foldl_proj]
  rfl

/-- C5 (counterexample): a persisted chunk whose block array has length 1
(not 16·16·24) is not rejected: `loadWorld` installs the chunk with the
short array as-is. -/
theorem loadWorld_short_array_counterexample :
    worldDataProj (loadWorld [((0, 0), [GRASS])]) = [((0, 0), [GRASS])] ∧
    ([GRASS] : List ℕ).length ≠ CHUNK_SIZE * CHUNK_SIZE * CHUNK_HEIGHT := by
  constructor
  · rw [loadWorld, loadWorld_foldl_proj]
    rfl
  · decide

/-- C7: the save/load round trip restores exactly the original chunk
coordinates and block arrays, for any world with at least one loaded
chunk whose arrays are full-size with block values 0–6. -/
theorem save_load_roundtrip (w : World)
    (_hne : w ≠ [])
    (_hlen : ∀ e ∈ w, (e.2).data.length = CHUNK_SIZE * CHUNK_SIZE * CHUNK_HEIGHT)
    (hval : ∀ e ∈ w, ∀ v ∈ (e.2).data, v ≤ 6) :
    worldDataProj (loadWorld (saveWorld w)) = worldDataProj w := by
  rw [loadWorld, loadWorld_foldl_proj]
  simp only [worldDataProj, saveWorld, List.map_nil, List.nil_append]
  rw [List.map_map]
  refine List.map_congr_left fun e he => ?_
  have hmap : (e.2).data.map (fun v => v % 256) = (e.2).data := by
    have h1 : (e.2).data.map (fun v => v % 256) = (e.2).data.map id :=
      List.map_congr_left fun v hv =>
        Nat.mod_eq_of_lt (lt_of_le_of_lt (hval e he v hv) (by norm_num))
    rw [h1, List.map_id]
  simp [Function.comp, hmap]

/-- Witness for `save_load_roundtrip` at a one-chunk world. -/
theorem save_load_roundtrip_witness :
    (c7World ≠ [] ∧
      (∀ e ∈ c7World, (e.2).data.length = CHUNK_SIZE * CHUNK_SIZE * CHUNK_HEIGHT) ∧
      (∀ e ∈ c7World, ∀ v ∈ (e.2).data, v ≤ 6)) ∧
    worldDataProj (loadWorld (saveWorld c7World)) = worldDataProj c7World :=
  ⟨⟨by simp [c7World], by simp [c7World],
      by simp [c7World, List.mem_replicate, DIRT]; omega⟩,
    save_load_roundtrip c7World (by simp [c7World]) (by simp [c7World])
      (by simp [c7World, List.mem_replicate, DIRT]; omega)⟩

theorem leftFace_mem_chunkFaces (w : World) (cx cz : ℤ) (d : ChunkData)
    (x y z : ℕ) (hx : x < CHUNK_SIZE) (hy : y < CHUNK_HEIGHT) (hz : z < CHUNK_SIZE)
    (hsolid : d[cellIndex x y z]? ≠ some AIR)
    (hair : getBlock w cx cz ((x : ℤ) - 1) y z = some AIR) :
    leftFaceAt cx cz d x y z ∈ chunkFaces w cx cz d := by
  have hface : leftFaceAt cx cz d x y z ∈
      faceChecks w cx cz x y z (d[cellIndex x y z]?) := by
    simp only [faceChecks, leftFaceAt]
    rw [if_pos hair]
    refine List.mem_append.mpr (Or.inl ?_)
    refine List.mem_append.mpr (Or.inl ?_)
    refine List.mem_append.mpr (Or.inl ?_)
    refine List.mem_append.mpr (Or.inl ?_)
    refine List.mem_append.mpr (Or.inr ?_)
    exact List.mem_singleton.mpr rfl
  unfold chunkFaces
  rw [List.mem_flatMap]
  refine ⟨y, List.mem_range.mpr hy, ?_⟩
  rw [List.mem_flatMap]
  refine ⟨z, List.mem_range.mpr hz, ?_⟩
  rw [List.mem_flatMap]
  refine ⟨x, List.mem_range.mpr hx, ?_⟩
  unfold cellFaces
  split
  · rename_i heq
    exact absurd heq hsolid
  · exact hface

theorem getBlock_neg_x (w : World) (cx cz x y z : ℤ) (hx : x < 0) :
    getBlock w cx cz x y z = some AIR := by
  unfold getBlock
  split
  · rfl
  · rw [if_pos (Or.inl hx)]

theorem solidData_getElem? (i : ℕ) (h : i < 6144) : solidData[i]? = some STONE := by
  have e : solidData = List.replicate 6144 STONE := rfl
  rw [e, List.getElem?_replicate, if_pos h]

theorem solidData_cell_not_air : solidData[cellIndex 0 0 0]? ≠ some AIR := by
  rw [solidData_getElem? (cellIndex 0 0 0) (by norm_num [cellIndex, CHUNK_SIZE, CHUNK_HEIGHT])]
  simp [STONE, AIR]

theorem flatData_getElem? (i : ℕ) (h : i < 6144) :
    flatData[i]? = some (if i < 1280 then DIRT else if i < 1536 then GRASS else AIR) := by
  have e : flatData = List.replicate 1280 DIRT ++
      (List.replicate 256 GRASS ++ List.replicate 4608 AIR) := rfl
  rw [e]
  rcases Nat.lt_or_ge i 1280 with h1 | h1
  · rw [List.getElem?_append_left (by simp only [List.length_replicate]; exact h1),
      List.getElem?_replicate, if_pos h1, if_pos h1]
  · rw [List.getElem?_append_right (by simp only [List.length_replicate]; exact h1)]
    simp only [List.length_replicate]
    rcases Nat.lt_or_ge i 1536 with h2 | h2
    · rw [List.getElem?_append_left (by simp only [List.length_replicate]; omega),
        List.getElem?_replicate, if_pos (by omega : i - 1280 < 256),
        if_neg (by omega : ¬i < 1280), if_pos h2]
    · rw [List.getElem?_append_right (by simp only [List.length_replicate]; omega)]
      simp only [List.length_replicate]
      rw [List.getElem?_replicate, if_pos (by omega : i - 1280 - 256 < 4608),
        if_neg (by omega : ¬i < 1280), if_neg (by omega : ¬i < 1536)]

theorem flatData_cell_not_air : flatData[cellIndex 0 0 0]? ≠ some AIR := by
  rw [flatData_getElem? (cellIndex 0 0 0) (by norm_num [cellIndex, CHUNK_SIZE, CHUNK_HEIGHT])]
  simp [cellIndex, DIRT, AIR]

theorem leftFace_emitted_at_edge (w : World) (cx cz : ℤ) (d : ChunkData)
    (y z : ℕ) (hy : y < CHUNK_HEIGHT) (hz : z < CHUNK_SIZE)
    (hsolid : d[cellIndex 0 y z]? ≠ some AIR) :
    leftFaceAt cx cz d 0 y z ∈ chunkFaces w cx cz d :=
  leftFace_mem_chunkFaces w cx cz d 0 y z (by decide) hy hz hsolid
    (getBlock_neg_x w cx cz _ y z (by norm_num))

/-- C1 (counterexample): in `solidWorld` the chunk (−1, 0) is loaded and
its cell adjacent to the (0, 0)-chunk cell (0, 0, 0) is solid Stone, yet
`buildChunkMesh` still emits the left-side quad for that cell, and the
fully solid, fully surrounded chunk (0, 0) yields a nonempty geometry
batch — not zero exposed faces. -/
theorem crossChunk_cull_counterexample :
    getBlock solidWorld (-1) 0 15 0 0 = some STONE ∧
    leftFaceAt 0 0 solidData 0 0 0 ∈ chunkFaces solidWorld 0 0 solidData ∧
    buildChunkMesh solidWorld 0 0 solidData ≠ none := by
  have hmem : leftFaceAt 0 0 solidData 0 0 0 ∈ chunkFaces solidWorld 0 0 solidData :=
    leftFace_emitted_at_edge solidWorld 0 0 solidData 0 0 (by decide) (by decide)
      solidData_cell_not_air
  have hstone : getBlock solidWorld (-1) 0 15 0 0 = some STONE := by
    show solidData[cellIndex (15 : ℤ).toNat (0 : ℤ).toNat (0 : ℤ).toNat]? = some STONE
    exact solidData_getElem? _ (by norm_num [cellIndex, CHUNK_SIZE, CHUNK_HEIGHT])
  refine ⟨hstone, hmem, ?_⟩
  have hne : chunkFaces solidWorld 0 0 solidData ≠ [] := List.ne_nil_of_mem hmem
  simp only [buildChunkMesh]
  rw [if_neg hne]
  simp

/-- C1 (amended): the mesher never consults the adjacent chunk — an
out-of-range neighbor query returns Air no matter what is loaded there —
so a solid block at local x = 0 always gets its left-side quad emitted,
for every world, including one whose (x−1) neighbor chunk is loaded and
solid. -/
theorem mesher_edge_always_exposed (w : World) (cx cz : ℤ) (d : ChunkData)
    (y z : ℕ) (hy : y < CHUNK_HEIGHT) (hz : z < CHUNK_SIZE)
    (hsolid : d[cellIndex 0 y z]? ≠ some AIR) :
    getBlock w cx cz ((0 : ℤ) - 1) y z = some AIR ∧
    leftFaceAt cx cz d 0 y z ∈ chunkFaces w cx cz d :=
  ⟨getBlock_neg_x w cx cz ((0 : ℤ) - 1) y z (by norm_num),
    leftFace_emitted_at_edge w cx cz d y z hy hz hsolid⟩

/-- Witness for `mesher_edge_always_exposed` over the empty world. -/
theorem mesher_edge_always_exposed_witness :
    (0 < CHUNK_HEIGHT ∧ 0 < CHUNK_SIZE ∧
      solidData[cellIndex 0 0 0]? ≠ some AIR) ∧
    (getBlock [] 0 0 ((0 : ℤ) - 1) 0 0 = some AIR ∧
      leftFaceAt 0 0 solidData 0 0 0 ∈ chunkFaces [] 0 0 solidData) :=
  ⟨⟨by decide, by decide, solidData_cell_not_air⟩,
    mesher_edge_always_exposed [] 0 0 solidData 0 0 (by decide) (by decide)
      solidData_cell_not_air⟩

/-- C9: a solid block at local x = 0 in a loaded chunk whose (x−1)
neighbor chunk is unloaded yields an exposed left-side quad; block
queries aimed at the unloaded neighbor chunk all resolve to Air. -/
theorem openEdge_unloaded_neighbor_exposed (w : World) (cx cz : ℤ)
    (ch : Chunk) (y z : ℕ) (hy : y < CHUNK_HEIGHT) (hz : z < CHUNK_SIZE)
    (_hload : findChunk w (cx, cz) = some ch)
    (hunload : findChunk w (cx - 1, cz) = none)
    (hsolid : ch.data[cellIndex 0 y z]? ≠ some AIR) :
    (∀ x' y' z' : ℤ, getBlock w (cx - 1) cz x' y' z' = some AIR) ∧
    leftFaceAt cx cz ch.data 0 y z ∈ chunkFaces w cx cz ch.data := by
  constructor
  · intro x' y' z'
    unfold getBlock
    rw [hunload]
  · exact leftFace_emitted_at_edge w cx cz ch.data y z hy hz hsolid

/-- Witness for `openEdge_unloaded_neighbor_exposed` over `flatWorld`,
whose (−1, 0) neighbor chunk is not loaded. -/
theorem openEdge_unloaded_neighbor_exposed_witness :
    (0 < CHUNK_HEIGHT ∧ 0 < CHUNK_SIZE ∧
      findChunk flatWorld (0, 0) = some ⟨flatData, none⟩ ∧
      findChunk flatWorld (0 - 1, 0) = none ∧
      (Chunk.mk flatData none).data[cellIndex 0 0 0]? ≠ some AIR) ∧
    ((∀ x' y' z' : ℤ, getBlock flatWorld (0 - 1) 0 x' y' z' = some AIR) ∧
      leftFaceAt 0 0 (Chunk.mk flatData none).data 0 0 0 ∈
        chunkFaces flatWorld 0 0 (Chunk.mk flatData none).data) :=
  ⟨⟨by decide, by decide, rfl, rfl, flatData_cell_not_air⟩,
    openEdge_unloaded_neighbor_exposed flatWorld 0 0 ⟨flatData, none⟩ 0 0
      (by decide) (by decide) rfl rfl flatData_cell_not_air⟩

theorem generateChunkData_getElem? (cx cz : ℤ) (x y z : ℕ)
    (hx : x < 16) (hy : y < 24) (hz : z < 16) :
    (generateChunkData cx cz)[cellIndex x y z]? =
      some (genCellWith (terrainHeight (cx * 16 + x) (cz * 16 + z)) y) := by
  have hi : cellIndex x y z < CHUNK_SIZE * CHUNK_SIZE * CHUNK_HEIGHT := by
    simp only [cellIndex, CHUNK_SIZE, CHUNK_HEIGHT]
    omega
  unfold generateChunkData
  rw [List.getElem?_map, List.getElem?_range hi]
  have hx' : cellIndex x y z % CHUNK_SIZE = x := by
    simp only [cellIndex, CHUNK_SIZE]
    omega
  have hz' : cellIndex x y z % (CHUNK_SIZE * CHUNK_SIZE) / CHUNK_SIZE = z := by
    simp only [cellIndex, CHUNK_SIZE]
    omega
  have hy' : cellIndex x y z / (CHUNK_SIZE * CHUNK_SIZE) = y := by
    simp only [cellIndex, CHUNK_SIZE]
    omega
  simp only [Option.map_some', hx', hz', hy']
  norm_num [CHUNK_SIZE]

theorem genCellWith_cases (h : ℤ) (y : ℕ) :
    genCellWith h y = AIR ∨ genCellWith h y = GRASS ∨
    genCellWith h y = DIRT ∨ genCellWith h y = STONE := by
  unfold genCellWith
  split_ifs <;> simp [AIR, GRASS, DIRT, STONE]

theorem genCellWith_air_above (h : ℤ) (y : ℕ) (hgt : h < (y : ℤ)) :
    genCellWith h y = AIR := by
  unfold genCellWith
  rw [if_neg (by omega), if_neg (by omega)]

theorem genCellWith_eq_grass_iff (h : ℤ) (y : ℕ) :
    genCellWith h y = GRASS ↔ (y : ℤ) = h := by
  unfold genCellWith GRASS STONE DIRT AIR
  split_ifs with a1 a2 a3 <;> constructor <;> intro hc <;>
    first | omega | exact hc.elim

theorem terrainHeight_ge_one (wx wz : ℤ) : 1 ≤ terrainHeight wx wz := by
  unfold terrainHeight
  refine Int.le_floor.mpr ?_
  push_cast
  nlinarith [Real.neg_one_le_sin ((wx : ℝ) * 0.1), Real.neg_one_le_cos ((wz : ℝ) * 0.1)]

theorem terrainHeight_le_nine (wx wz : ℤ) : terrainHeight wx wz ≤ 9 := by
  unfold terrainHeight
  have h : (5 : ℝ) + Real.sin ((wx : ℝ) * 0.1) * 2 + Real.cos ((wz : ℝ) * 0.1) * 2 ≤ 9 := by
    nlinarith [Real.sin_le_one ((wx : ℝ) * 0.1), Real.cos_le_one ((wz : ℝ) * 0.1)]
  calc ⌊(5 : ℝ) + Real.sin ((wx : ℝ) * 0.1) * 2 + Real.cos ((wz : ℝ) * 0.1) * 2⌋
      ≤ ⌊(9 : ℝ)⌋ := Int.floor_le_floor h
    _ = 9 := by
        rw [show (9 : ℝ) = ((9 : ℤ) : ℝ) by norm_num, Int.floor_intCast]

/-- C6: each generated column follows the spec height formula
`floor(5 + 2 sin(wx/10) + 2 cos(wz/10))` — `terrainHeight` is that very
floor — and layers the column as Stone strictly below height−3, Dirt from
height−3 up to (excluding) height, Grass exactly at height, Air above. -/
theorem generate_terrain_layering (cx cz : ℤ) (x z : Fin 16) (y : Fin 24) :
    terrainHeight (cx * 16 + (x : ℕ)) (cz * 16 + (z : ℕ)) =
      ⌊(5 : ℝ) + 2 * Real.sin (((cx * 16 + (x : ℕ) : ℤ) : ℝ) * 0.1) +
        2 * Real.cos (((cz * 16 + (z : ℕ) : ℤ) : ℝ) * 0.1)⌋ ∧
    (generateChunkData cx cz)[cellIndex x y z]? =
      some
        (if (y : ℤ) < terrainHeight (cx * 16 + (x : ℕ)) (cz * 16 + (z : ℕ)) - 3 then STONE
        else if (y : ℤ) < terrainHeight (cx * 16 + (x : ℕ)) (cz * 16 + (z : ℕ)) then DIRT
        else if (y : ℤ) = terrainHeight (cx * 16 + (x : ℕ)) (cz * 16 + (z : ℕ)) then GRASS
        else AIR) := by
  constructor
  · unfold terrainHeight
    congr 1
    ring
  · rw [generateChunkData_getElem? cx cz x y z x.isLt y.isLt z.isLt]
    congr 1
    unfold genCellWith
    split_ifs <;> first | rfl | omega

/-- C10: every generated cell is Air, Grass, Dirt or Stone (never Sand,
Wood or Brick); every cell from y = 10 up is Air; and in every column the
surface height lies in [1, 9] and Grass appears exactly at that height
(hence exactly once per column). -/
theorem generate_invariants (cx cz : ℤ) :
    (∀ (x z : Fin 16) (y : Fin 24), ∃ b : ℕ,
      (generateChunkData cx cz)[cellIndex x y z]? = some b ∧
        (b = AIR ∨ b = GRASS ∨ b = DIRT ∨ b = STONE)) ∧
    (∀ (x z : Fin 16) (y : Fin 14),
      (generateChunkData cx cz)[cellIndex x ((y : ℕ) + 10) z]? = some AIR) ∧
    (∀ x z : Fin 16,
      1 ≤ terrainHeight (cx * 16 + (x : ℕ)) (cz * 16 + (z : ℕ)) ∧
      terrainHeight (cx * 16 + (x : ℕ)) (cz * 16 + (z : ℕ)) ≤ 9 ∧
      ∀ y : Fin 24,
        ((generateChunkData cx cz)[cellIndex x y z]? = some GRASS ↔
          (y : ℤ) = terrainHeight (cx * 16 + (x : ℕ)) (cz * 16 + (z : ℕ)))) := by
  refine ⟨fun x z y => ?_, fun x z y => ?_, fun x z => ?_⟩
  · rw [generateChunkData_getElem? cx cz x y z x.isLt y.isLt z.isLt]
    exact ⟨_, rfl, genCellWith_cases _ _⟩
  · rw [generateChunkData_getElem? cx cz x ((y : ℕ) + 10) z x.isLt (by omega) z.isLt]
    rw [genCellWith_air_above]
    have h9 := terrainHeight_le_nine (cx * 16 + (x : ℕ)) (cz * 16 + (z : ℕ))
    push_cast
    omega
  · refine ⟨terrainHeight_ge_one _ _, terrainHeight_le_nine _ _, fun y => ?_⟩
    rw [generateChunkData_getElem? cx cz x y z x.isLt y.isLt z.isLt]
    constructor
    · intro hsome
      have hval : genCellWith (terrainHeight (cx * 16 + (x : ℕ)) (cz * 16 + (z : ℕ))) (y : ℕ) = GRASS :=
        Option.some.inj hsome
      exact (genCellWith_eq_grass_iff _ _).mp hval
    · intro hy
      rw [(genCellWith_eq_grass_iff _ _).mpr hy]

theorem getBlock_flatWorld (x y z : ℤ) (hx0 : 0 ≤ x) (hx1 : x < 16)
    (hz0 : 0 ≤ z) (hz1 : z < 16) :
    getBlock flatWorld 0 0 x y z = flatBlockAt y := by
  have hf : findChunk flatWorld (0, 0) = some ⟨flatData, none⟩ := rfl
  unfold getBlock
  split
  · rename_i heq
    rw [hf] at heq
    cases heq
  · rename_i ch heq
    rw [hf] at heq
    have hch : ch = ⟨flatData, none⟩ := (Option.some.inj heq).symm
    subst hch
    unfold flatBlockAt
    by_cases hy : y < 0 ∨ ((CHUNK_HEIGHT : ℕ) : ℤ) ≤ y
    · rw [if_pos, if_pos hy]
      rcases hy with hy | hy
      · exact Or.inr (Or.inr (Or.inr (Or.inr (Or.inl hy))))
      · exact Or.inr (Or.inr (Or.inr (Or.inr (Or.inr hy))))
    · push_neg at hy
      obtain ⟨hy0, hy1⟩ := hy
      have hy1' : y < 24 := by
        simpa [CHUNK_HEIGHT] using hy1
      rw [if_neg (by simp only [CHUNK_SIZE, CHUNK_HEIGHT]; push_cast; omega),
        if_neg (by simp only [CHUNK_HEIGHT] at hy1 ⊢; omega)]
      rw [flatData_getElem? _ (by simp only [cellIndex, CHUNK_SIZE]; omega)]
      simp only [cellIndex, CHUNK_SIZE]
      split_ifs <;> first | rfl | omega

theorem updatePhysics_flat_step (pitch yaw : ℝ) (dtq : ℚ) (q : QState)
    (hx0 : 0 ≤ q.px) (hx1 : q.px < 16) (hz0 : 0 ≤ q.pz) (hz1 : q.pz < 16) :
    updatePhysics flatWorld pitch yaw 0 0 ((dtq : ℚ) : ℝ) (castState q) =
      castState (flatStep dtq q) := by
  obtain ⟨px, py, pz, vx, vy, vz, og⟩ := q
  dsimp only at hx0 hx1 hz0 hz1
  simp only [updatePhysics, flatStep, castState]
  simp only [neg_zero, zero_mul, mul_zero, add_zero, zero_add]
  have hcs : ((CHUNK_SIZE : ℕ) : ℚ) = 16 := by norm_num [CHUNK_SIZE]
  have hA : ⌊((px : ℚ) : ℝ) / ((CHUNK_SIZE : ℕ) : ℝ)⌋ = (0 : ℤ) := by
    rw [show ((px : ℚ) : ℝ) / ((CHUNK_SIZE : ℕ) : ℝ) =
        ((px / (CHUNK_SIZE : ℕ) : ℚ) : ℝ) by push_cast; ring, Rat.floor_cast]
    rw [Int.floor_eq_zero_iff]
    constructor
    · exact div_nonneg hx0 (by rw [hcs]; norm_num)
    · rw [div_lt_one (by rw [hcs]; norm_num)]
      rw [hcs]
      exact hx1
  have hB : ⌊((pz : ℚ) : ℝ) / ((CHUNK_SIZE : ℕ) : ℝ)⌋ = (0 : ℤ) := by
    rw [show ((pz : ℚ) : ℝ) / ((CHUNK_SIZE : ℕ) : ℝ) =
        ((pz / (CHUNK_SIZE : ℕ) : ℚ) : ℝ) by push_cast; ring, Rat.floor_cast]
    rw [Int.floor_eq_zero_iff]
    constructor
    · exact div_nonneg hz0 (by rw [hcs]; norm_num)
    · rw [div_lt_one (by rw [hcs]; norm_num)]
      rw [hcs]
      exact hz1
  rw [hA, hB]
  simp only [Int.cast_zero, zero_mul, sub_zero]
  have hcast1 : ((py : ℚ) : ℝ) + (((vy : ℚ) : ℝ) - ((GRAVITY : ℚ) : ℝ) * ((dtq : ℚ) : ℝ)) * ((dtq : ℚ) : ℝ) - 1.6 =
      ((py + (vy - GRAVITY * dtq) * dtq - 1.6 : ℚ) : ℝ) := by
    push_cast
    ring
  rw [hcast1]
  simp only [Rat.floor_cast]
  rw [getBlock_flatWorld ⌊px⌋ ⌊py + (vy - GRAVITY * dtq) * dtq - 1.6⌋ ⌊pz⌋
    (Int.le_floor.mpr (by exact_mod_cast hx0)) (Int.floor_lt.mpr (by exact_mod_cast hx1))
    (Int.le_floor.mpr (by exact_mod_cast hz0)) (Int.floor_lt.mpr (by exact_mod_cast hz1))]
  set ly : ℤ := ⌊py + (vy - GRAVITY * dtq) * dtq - 1.6⌋ with hly
  by_cases hg : flatBlockAt ly ≠ some AIR
  · rw [if_pos hg, if_pos hg]
    dsimp only
    have hk : (((ly : ℝ) + 1 + 1.6 < -10) ↔ ((ly : ℚ) + 1 + 1.6 < -10)) := by
      rw [show ((ly : ℝ) + 1 + 1.6) = (((ly : ℚ) + 1 + 1.6 : ℚ) : ℝ) by push_cast; ring,
        show (-10 : ℝ) = ((-10 : ℚ) : ℝ) by norm_num]
      exact Rat.cast_lt
    by_cases hk2 : ((ly : ℚ) + 1 + 1.6 < -10)
    · rw [if_pos (hk.mpr hk2), if_pos hk2]
      dsimp only
      simp only [PhysState.mk.injEq]
      norm_num
    · rw [if_neg (fun hcon => hk2 (hk.mp hcon)), if_neg hk2]
      dsimp only
      simp only [PhysState.mk.injEq]
      push_cast
      norm_num
  · rw [if_neg hg, if_neg hg]
    dsimp only
    have hpy : ((py : ℚ) : ℝ) + (((vy : ℚ) : ℝ) - ((GRAVITY : ℚ) : ℝ) * ((dtq : ℚ) : ℝ)) * ((dtq : ℚ) : ℝ) =
        ((py + (vy - GRAVITY * dtq) * dtq : ℚ) : ℝ) := by
      push_cast
      ring
    rw [hpy]
    have hk : (((py + (vy - GRAVITY * dtq) * dtq : ℚ) : ℝ) < -10 ↔ (py + (vy - GRAVITY * dtq) * dtq : ℚ) < -10) := by
      rw [show (-10 : ℝ) = ((-10 : ℚ) : ℝ) by norm_num]
      exact Rat.cast_lt
    by_cases hk2 : (py + (vy - GRAVITY * dtq) * dtq : ℚ) < -10
    · rw [if_pos (hk.mpr hk2), if_pos hk2]
      dsimp only
      simp only [PhysState.mk.injEq]
      norm_num
    · rw [if_neg (fun hcon => hk2 (hk.mp hcon)), if_neg hk2]
      dsimp only
      simp only [PhysState.mk.injEq]
      push_cast
      norm_num

theorem flatStep_px_pz (dtq : ℚ) (s : QState) :
    ((flatStep dtq s).px = s.px ∧ (flatStep dtq s).pz = s.pz) ∨
    ((flatStep dtq s).px = 0 ∧ (flatStep dtq s).pz = 0) := by
  unfold flatStep
  dsimp only
  split_ifs <;> simp

theorem flatStep_inv (dtq : ℚ) (s : QState)
    (h : 0 ≤ s.px ∧ s.px < 16 ∧ 0 ≤ s.pz ∧ s.pz < 16) :
    0 ≤ (flatStep dtq s).px ∧ (flatStep dtq s).px < 16 ∧
      0 ≤ (flatStep dtq s).pz ∧ (flatStep dtq s).pz < 16 := by
  rcases flatStep_px_pz dtq s with ⟨h1, h2⟩ | ⟨h1, h2⟩ <;> rw [h1, h2]
  · exact h
  · exact ⟨le_refl 0, by norm_num, le_refl 0, by norm_num⟩

theorem updatePhysics_flat_iterate (pitch yaw : ℝ) (dtq : ℚ) (n : ℕ) (q : QState)
    (h : 0 ≤ q.px ∧ q.px < 16 ∧ 0 ≤ q.pz ∧ q.pz < 16) :
    (updatePhysics flatWorld pitch yaw 0 0 ((dtq : ℚ) : ℝ))^[n] (castState q) =
      castState ((flatStep dtq)^[n] q) := by
  induction n generalizing q with
  | zero => rfl
  | succ n ih =>
    rw [Function.iterate_succ_apply, Function.iterate_succ_apply,
      updatePhysics_flat_step pitch yaw dtq q h.1 h.2.1 h.2.2.1 h.2.2.2,
      ih (flatStep dtq q) (flatStep_inv dtq q h)]

set_option maxRecDepth 8000 in
unseal Rat.add Rat.sub Rat.mul Rat.inv Rat.ofScientific in
theorem flatStep_c2_84 : (flatStep 0.016)^[84] c2Start = c2Rest := by
  have e1 : (flatStep 0.016)^[14] c2Start = ⟨8, 3666 / 125, 8, 0, -28 / 5, 0, false⟩ := by
    decide
  have e2 : (flatStep 0.016)^[14] (⟨8, 3666 / 125, 8, 0, -28 / 5, 0, false⟩ : QState) =
      ⟨8, 17126 / 625, 8, 0, -56 / 5, 0, false⟩ := by
    decide
  have e3 : (flatStep 0.016)^[14] (⟨8, 17126 / 625, 8, 0, -56 / 5, 0, false⟩ : QState) =
      ⟨8, 15138 / 625, 8, 0, -84 / 5, 0, false⟩ := by
    decide
  have e4 : (flatStep 0.016)^[14] (⟨8, 15138 / 625, 8, 0, -84 / 5, 0, false⟩ : QState) =
      ⟨8, 12366 / 625, 8, 0, -112 / 5, 0, false⟩ := by
    decide
  have e5 : (flatStep 0.016)^[14] (⟨8, 12366 / 625, 8, 0, -112 / 5, 0, false⟩ : QState) =
      ⟨8, 8810 / 625, 8, 0, -28, 0, false⟩ := by
    decide
  have e6 : (flatStep 0.016)^[14] (⟨8, 8810 / 625, 8, 0, -28, 0, false⟩ : QState) = c2Rest := by
    decide
  have h84 : (84 : ℕ) = 14 + (14 + (14 + (14 + (14 + 14)))) := rfl
  rw [h84, Function.iterate_add_apply, Function.iterate_add_apply,
    Function.iterate_add_apply, Function.iterate_add_apply, Function.iterate_add_apply,
    e1, e2, e3, e4, e5, e6]

set_option maxRecDepth 8000 in
unseal Rat.add Rat.sub Rat.mul Rat.inv Rat.ofScientific in
theorem flatStep_c2_fix : flatStep 0.016 c2Rest = c2Rest := by decide

/-- C2: a body at rest released at y = 30 over the flat Grass surface at
y = 5, stepped with dt = 0.016 and no stick input, reaches after 84 steps
the rest state with grounded = true, zero vertical velocity and
position.y = 5 + 1 + 1.6, and that state is a fixed point of the step —
for every camera pitch and yaw. -/
theorem physics_falls_to_rest (pitch yaw : ℝ) :
    (updatePhysics flatWorld pitch yaw 0 0 (0.016 : ℝ))^[84] (castState c2Start) =
        castState c2Rest ∧
    updatePhysics flatWorld pitch yaw 0 0 (0.016 : ℝ) (castState c2Rest) = castState c2Rest ∧
    (castState c2Rest).py = 5 + 1 + 1.6 ∧ (castState c2Rest).vy = 0 ∧
    (castState c2Rest).onGround = true := by
  have hdt : (0.016 : ℝ) = ((0.016 : ℚ) : ℝ) := by norm_num
  have hinv : 0 ≤ c2Start.px ∧ c2Start.px < 16 ∧ 0 ≤ c2Start.pz ∧ c2Start.pz < 16 := by
    refine ⟨?_, ?_, ?_, ?_⟩ <;> norm_num [c2Start]
  have hinv2 : 0 ≤ c2Rest.px ∧ c2Rest.px < 16 ∧ 0 ≤ c2Rest.pz ∧ c2Rest.pz < 16 := by
    refine ⟨?_, ?_, ?_, ?_⟩ <;> norm_num [c2Rest]
  refine ⟨?_, ?_, ?_, ?_, rfl⟩
  · rw [hdt, updatePhysics_flat_iterate pitch yaw 0.016 84 c2Start hinv, flatStep_c2_84]
  · rw [hdt, updatePhysics_flat_step pitch yaw 0.016 c2Rest hinv2.1 hinv2.2.1 hinv2.2.2.1
      hinv2.2.2.2, flatStep_c2_fix]
  · show ((38 / 5 : ℚ) : ℝ) = 5 + 1 + 1.6
    norm_num
  · show ((0 : ℚ) : ℝ) = 0
    norm_num

theorem updatePhysics_empty_pz (pitch yaw miX miY dt : ℝ) (s : PhysState)
    (hnk : ¬(s.py + (s.vy - (GRAVITY : ℝ) * dt) * dt < -10)) :
    (updatePhysics [] pitch yaw miX miY dt s).pz =
      s.pz +
        ((horizNormalize (applyCameraRot pitch yaw (0, 0, -1))).2.2 * (-miY * (SPEED : ℝ) * dt) +
          (horizNormalize (applyCameraRot pitch yaw (1, 0, 0))).2.2 * (miX * (SPEED : ℝ) * dt)) := by
  have hgb : ∀ a b c d e : ℤ, getBlock ([] : World) a b c d e = some AIR :=
    fun _ _ _ _ _ => rfl
  simp only [updatePhysics, horizNormalize, hgb, ne_eq, not_true_eq_false, if_false,
    zero_div, zero_mul, mul_zero, add_zero, zero_add]
  rw [if_neg (by simpa using hnk)]

theorem camRot_level : applyCameraRot 0 (Real.pi / 4) (0, 0, -1) =
    (-(Real.sqrt 2 / 2), 0, -(Real.sqrt 2 / 2)) := by
  unfold applyCameraRot rotX rotY
  simp [Real.sin_zero, Real.cos_zero, Real.sin_pi_div_four, Real.cos_pi_div_four]

theorem camRot_down : applyCameraRot (Real.pi / 2) (Real.pi / 4) (0, 0, -1) =
    (-(Real.sqrt 2 / 2), Real.sqrt 2 / 2, 0) := by
  unfold applyCameraRot rotX rotY
  simp [Real.sin_pi_div_two, Real.cos_pi_div_two, Real.sin_pi_div_four,
    Real.cos_pi_div_four]

theorem horiz_level :
    (horizNormalize (-(Real.sqrt 2 / 2), (0 : ℝ), -(Real.sqrt 2 / 2))).2.2 =
      -(Real.sqrt 2 / 2) := by
  unfold horizNormalize
  dsimp only
  have h2 : Real.sqrt 2 * Real.sqrt 2 = 2 := Real.mul_self_sqrt (by norm_num)
  have hl : Real.sqrt (-(Real.sqrt 2 / 2) * -(Real.sqrt 2 / 2) + 0 * 0 +
      -(Real.sqrt 2 / 2) * -(Real.sqrt 2 / 2)) = 1 := by
    rw [show -(Real.sqrt 2 / 2) * -(Real.sqrt 2 / 2) + 0 * 0 +
        -(Real.sqrt 2 / 2) * -(Real.sqrt 2 / 2) = 1 by nlinarith [h2]]
    exact Real.sqrt_one
  rw [hl, div_one]

theorem horiz_down :
    (horizNormalize (-(Real.sqrt 2 / 2), Real.sqrt 2 / 2, (0 : ℝ))).2.2 = 0 := by
  unfold horizNormalize
  dsimp only
  exact zero_div _

/-- C4 (code evaluated at the failing input): two physics steps that
differ only in pitch — yaw = π/4, full forward stick (moveInput.y = −1),
dt = 0.016, airborne over an empty world — move the body in different
horizontal directions: level pitch moves along (−√2/2, 0, −√2/2) while
straight-down pitch moves along (−1, 0, 0), so the resulting z
coordinates differ.  The camera's default XYZ Euler order makes zeroing
the rotated forward vector's y component insufficient to cancel pitch. -/
theorem pitch_changes_heading :
    (updatePhysics [] (Real.pi / 2) (Real.pi / 4) 0 (-1) (0.016 : ℝ) airState).pz ≠
      (updatePhysics [] 0 (Real.pi / 4) 0 (-1) (0.016 : ℝ) airState).pz := by
  have hnk : ¬(airState.py + (airState.vy - (GRAVITY : ℝ) * 0.016) * 0.016 < -10) := by
    norm_num [airState, GRAVITY]
  rw [updatePhysics_empty_pz (Real.pi / 2) (Real.pi / 4) 0 (-1) 0.016 airState hnk,
    updatePhysics_empty_pz 0 (Real.pi / 4) 0 (-1) 0.016 airState hnk,
    camRot_level, camRot_down, horiz_level, horiz_down]
  simp only [zero_mul, mul_zero, add_zero, zero_add]
  intro hcon
  norm_num [airState, SPEED] at hcon

end OpenWorld
